import Mathlib

/-!
Verification of the CardioVar external-data layer against its specification.

The development shallowly embeds the relevant parts of the source:

* `src/api_cache.py`       — the SQLite-backed TTL cache (`APICache`);
* `src/api_integrations.py`— the retry decorator `retry_on_failure`, the
  `rate_limit` decorator, the module-level `fallback_used` flag, and the
  cache → live → (force_live short-circuit) → static-fallback chain shared
  by all `fetch_*` functions (translated from `fetch_gnomad_frequency`,
  lines 174-230, which is the shape shared by `fetch_ucsc_phylop` and the
  other fetchers);
* `src/api.py`             — the batch job worker `process_batch_task`
  (lines 88-133) and the job records created by `start_batch`.

Timestamps are modelled as rationals (hours), stored payloads as an
abstract type `α` (the Python layer stores `json.dumps` of the payload and
returns `json.loads` of it, which round-trips for the JSON-serializable
values the cache accepts), and HTTP / file-system effects as explicit
parameters describing the outcome of each external interaction.
-/

namespace CardioVar

/-! ## TTL cache store (`src/api_cache.py`)

The backing table `api_cache(cache_key PRIMARY KEY, data, created_at,
expires_at)` is modelled as an association list with at most one row per
key (the PRIMARY KEY invariant; `set` maintains it the way
`INSERT OR REPLACE` does, by replacing the conflicting row). -/

structure CacheEntry (α : Type) where
  data : α
  created_at : ℚ
  expires_at : ℚ
  deriving Repr, DecidableEq

/-- The rows of the `api_cache` table. -/
abbrev CacheTable (α : Type) : Type := List (String × CacheEntry α)

namespace APICache

variable {α : Type}

/-- `SELECT data, expires_at FROM api_cache WHERE cache_key = ?`
(the key is a PRIMARY KEY, so at most one row matches). -/
def lookupRow (table : CacheTable α) (key : String) : Option (CacheEntry α) :=
  (table.find? (fun r => r.1 = key)).map (fun r => r.2)

/-- `APICache.get` (src/api_cache.py lines 43-77): return the cached data
if a row exists and `datetime.now() > expires_at` does not hold, else
`None`.  The `max_age_hours` parameter is accepted (its Python default is
`None`) but the body never reads it. -/
def get (table : CacheTable α) (now : ℚ) (key : String)
    (max_age_hours : Option ℚ) : Option α :=
  match lookupRow table key with
  | none => none
  | some e => if now > e.expires_at then none else some e.data

/-- `APICache.set` (src/api_cache.py lines 79-104): `ttl` defaults to
`default_ttl_hours`; `INSERT OR REPLACE` writes the row
`(key, data, now, now + ttl)`, replacing any existing row for `key`. -/
def set (default_ttl_hours : ℚ) (table : CacheTable α) (now : ℚ)
    (key : String) (data : α) (ttl_hours : Option ℚ) : CacheTable α :=
  let ttl := ttl_hours.getD default_ttl_hours
  (key, ⟨data, now, now + ttl⟩) :: table.filter (fun r => ¬ r.1 = key)

/-! ### SQL `LIKE` matching

`invalidate_pattern` issues `DELETE FROM api_cache WHERE cache_key LIKE ?`.
SQLite's default `LIKE` is case-insensitive for the ASCII range, `%`
matches any sequence of characters and `_` matches any single character. -/

/-- ASCII lower-casing, as SQLite's default `LIKE` applies it. -/
def asciiLower (c : Char) : Char :=
  if 'A' ≤ c ∧ c ≤ 'Z' then Char.ofNat (c.toNat + 32) else c

/-- `LIKE` matching on character lists: `%` matches any (possibly empty)
sequence, `_` any single character, anything else matches itself up to
ASCII case. -/
def likeAux : List Char → List Char → Bool
  | [], s => s.isEmpty
  | '%' :: ps, s => s.tails.any (fun t => likeAux ps t)
  | '_' :: ps, s =>
    match s with
    | [] => false
    | _ :: cs => likeAux ps cs
  | p :: ps, s =>
    match s with
    | [] => false
    | c :: cs => (asciiLower p == asciiLower c) && likeAux ps cs

/-- `key LIKE pattern` in SQLite. -/
def likeMatch (pattern key : String) : Bool :=
  likeAux pattern.toList key.toList

/-- The table left behind by
`DELETE FROM api_cache WHERE cache_key LIKE ?`
(src/api_cache.py line 145). -/
def invalidatePatternTable (table : CacheTable α) (pattern : String) :
    CacheTable α :=
  table.filter (fun r => ¬ likeMatch pattern r.1)

/-- `cursor.rowcount` after the `DELETE`, bound to the local variable
`deleted` (src/api_cache.py line 146); it is logged but never returned. -/
def invalidatePatternDeleted (table : CacheTable α) (pattern : String) : ℕ :=
  (table.filter (fun r => likeMatch pattern r.1)).length

/-- The value the Python method `invalidate_pattern` returns to its caller:
the body (src/api_cache.py lines 141-149) has no `return` statement, so the
call evaluates to `None`. -/
def invalidatePatternReturn (table : CacheTable α) (pattern : String) :
    Option ℕ :=
  none

end APICache

/-! ## Retry wrapper (`src/api_integrations.py` lines 53-74)

`retry_on_failure(retries, backoff)` wraps `func`: for
`attempt in range(retries)` it calls `func`, returns the result if it is
not `None`, swallows any exception, and after the loop returns `None`.

One invocation of the wrapped operation is modelled as
`Except String (Option α)`: `.error e` is a raised exception, `.ok none`
an explicit `None` result, `.ok (some v)` a successful value.  The
operation itself is a function from the invocation index (0-based) to its
outcome, so the wrapper's behaviour over successive invocations is fully
determined. -/

/-- An attempt "fails" if the operation throws or returns `None`
(both take the same path through the wrapper's loop body). -/
def attemptFails {α : Type} : Except String (Option α) → Bool
  | .error _ => true
  | .ok none => true
  | .ok (some _) => false

/-- The loop of `retry_on_failure`'s `wrapper`, starting at invocation
index `attempt` with `remaining` attempts left: result value. -/
def retryGo {α : Type} (op : ℕ → Except String (Option α)) (attempt : ℕ) :
    ℕ → Option α
  | 0 => none
  | remaining + 1 =>
    match op attempt with
    | .ok (some v) => some v
    | _ => retryGo op (attempt + 1) remaining

/-- Number of invocations of the wrapped operation that the loop performs
(each loop iteration calls `func` exactly once). -/
def retryCount {α : Type} (op : ℕ → Except String (Option α)) (attempt : ℕ) :
    ℕ → ℕ
  | 0 => 0
  | remaining + 1 =>
    match op attempt with
    | .ok (some _) => 1
    | _ => 1 + retryCount op (attempt + 1) remaining

/-- `retry_on_failure(retries, backoff)(func)()`: the value the decorated
call returns.  The return type `Option α` (not `Except`) reflects that the
wrapper catches every exception and reports exhaustion as `None`. -/
def retry_on_failure {α : Type} (retries : ℕ)
    (op : ℕ → Except String (Option α)) : Option α :=
  retryGo op 0 retries

/-- How many times the decorated call invokes the wrapped operation. -/
def retryInvocations {α : Type} (retries : ℕ)
    (op : ℕ → Except String (Option α)) : ℕ :=
  retryCount op 0 retries

/-! ## Rate limiter (`src/api_integrations.py` lines 596-613)

`rate_limit(calls, period)` keeps `min_interval = period / calls` and a
closed-over `last_call_time` (initially `0.0`).  The wrapper computes
`elapsed = time.time() - last_call_time`, sleeps `min_interval - elapsed`
if `elapsed < min_interval`, then runs `func` and only afterwards sets
`last_call_time = time.time()`.  Wall-clock instants and durations are
modelled as rationals (seconds). -/

/-- The closed-over mutable state of one `rate_limit` decorator instance. -/
structure RateLimiterState where
  last_call_time : ℚ
  deriving Repr, DecidableEq

/-- `min_interval = period / calls` (src/api_integrations.py line 600). -/
def rateLimitMinInterval (calls : ℕ) (period : ℚ) : ℚ :=
  period / calls

/-- Observable timing of one limited call: when the wrapped function
starts executing and when it returns. -/
structure LimitedCall where
  start : ℚ
  finish : ℚ
  deriving Repr, DecidableEq

/-- One pass through the `wrapper` body: invoked at wall-clock time `now`,
with the wrapped function taking `duration` seconds.  Returns the call's
timing and the updated decorator state. -/
def rateLimitInvoke (min_interval : ℚ) (s : RateLimiterState) (now : ℚ)
    (duration : ℚ) : LimitedCall × RateLimiterState :=
  let elapsed := now - s.last_call_time
  let start := if elapsed < min_interval then now + (min_interval - elapsed) else now
  let finish := start + duration
  (⟨start, finish⟩, ⟨finish⟩)

/-! ## Source chain (`src/api_integrations.py` lines 174-230)

`fetch_gnomad_frequency` (the shape shared by `fetch_ucsc_phylop`,
`fetch_gtex_expression`, ..., each decorated with `retry_on_failure`):

1. `cache.get(cache_key)`; on a hit return the cached value;
2. otherwise one HTTP request; on a 2xx response compute the value,
   `cache.set` it and return it; a non-2xx status or an exception falls
   through;
3. if `force_live`: set the global `fallback_used` flag and return `None`
   — the fallback code is never reached;
4. otherwise look the key up in the static fallback dataset; on a hit set
   `fallback_used`, `cache.set` the value and return it;
5. otherwise set `fallback_used` and return `None`.

The external world is a `ChainEnv`: the outcome of the `i`-th live HTTP
attempt (`some v` for a 2xx response carrying `v`, `none` for a non-2xx
status / network error / malformed response, which the body treats
identically), and the static fallback dataset's entry for the key. -/

/-- Which tier answered a Source Chain attempt (the spec's provenance tag;
the gnomAD kind defines no synthetic generator). -/
inductive Provenance where
  | live
  | cache
  | fallback
  | synthetic
  | none
  deriving Repr, DecidableEq

/-- The environment one fetch runs against. -/
structure ChainEnv (α : Type) where
  /-- Outcome of the `i`-th live HTTP attempt for this key. -/
  live : ℕ → Option α
  /-- The static fallback dataset's entry for this key
  (`gnomad_fallback.json` lookup), if any. -/
  fallbackData : Option α

/-- Mutable state a fetch reads and writes: the cache row for this key
(already reduced to hit/miss, TTL expiry included) and the module-level
`fallback_used` flag (src/api_integrations.py line 41). -/
structure ChainState (α : Type) where
  cached : Option α
  fallback_used : Bool
  deriving Repr, DecidableEq

/-- Observables of one pass through the (undecorated) function body. -/
structure ChainOutcome (α : Type) where
  result : Option α
  provenance : Provenance
  /-- an HTTP request to the live upstream was issued -/
  liveAttempted : Bool
  /-- the static fallback dataset was consulted -/
  fallbackConsulted : Bool
  deriving Repr, DecidableEq

/-- `reset_fallback_flag` (src/api_integrations.py lines 43-48). -/
def reset_fallback_flag {α : Type} (s : ChainState α) : ChainState α :=
  { s with fallback_used := false }

/-- One execution of the body of `fetch_gnomad_frequency`
(src/api_integrations.py lines 179-230), with `liveIdx` numbering the live
HTTP attempt this body execution performs if it reaches step 2. -/
def chainBody {α : Type} (env : ChainEnv α) (liveIdx : ℕ) (force_live : Bool)
    (s : ChainState α) : ChainOutcome α × ChainState α :=
  match s.cached with
  | some v =>
    -- lines 181-184: cache hit, returned unchanged
    (⟨some v, .cache, false, false⟩, s)
  | Option.none =>
    match env.live liveIdx with
    | some v =>
      -- lines 186-195: 2xx response, cache.set, return
      (⟨some v, .live, true, false⟩, { s with cached := some v })
    | Option.none =>
      if force_live then
        -- lines 199-202: flag set, no fallback attempted
        (⟨Option.none, .none, true, false⟩, { s with fallback_used := true })
      else
        match env.fallbackData with
        | some v =>
          -- lines 205-227: fallback hit, flag set, cache.set, return
          (⟨some v, .fallback, true, true⟩, ⟨some v, true⟩)
        | Option.none =>
          -- lines 229-230: flag set, return None
          (⟨Option.none, .none, true, true⟩, { s with fallback_used := true })

/-- The `retry_on_failure` loop around `chainBody`: runs the body up to
`remaining` more times (retrying whenever the body returns `None`, which
is how the decorator sees every failing path of the body — it never
raises), collecting each body execution's observables.  Returns the final
result, the final state and the attempt trace in order. -/
def chainRetry {α : Type} (env : ChainEnv α) (force_live : Bool) :
    ℕ → ℕ → ChainState α → Option α × ChainState α × List (ChainOutcome α)
  | _, 0, s => (Option.none, s, [])
  | attempt, remaining + 1, s =>
    let (o, s') := chainBody env attempt force_live s
    match o.result with
    | some v => (some v, s', [o])
    | Option.none =>
      let (r, s'', tr) := chainRetry env force_live (attempt + 1) remaining s'
      (r, s'', o :: tr)

/-- The decorated fetch: `retry_on_failure(retries=3, backoff=2.0)` applied
to the chain body (src/api_integrations.py lines 174-175), instrumented
with the trace of per-attempt observables. -/
def fetch_gnomad_frequency {α : Type} (env : ChainEnv α) (retries : ℕ)
    (force_live : Bool) (s : ChainState α) :
    Option α × ChainState α × List (ChainOutcome α) :=
  chainRetry env force_live 0 retries s

/-- Number of live HTTP attempts a decorated fetch performed. -/
def liveAttempts {α : Type} (trace : List (ChainOutcome α)) : ℕ :=
  (trace.filter (fun o => o.liveAttempted)).length

/-! ### Request-scoped accumulation of `fallback_used`

`compute_variant_impact` (src/variant_engine.py line 77) calls
`reset_fallback_flag()` at the start of a top-level request and then makes
a series of fetches, each for its own key (so each call starts from its
own cache row), all sharing the module-level flag. -/

/-- One Source Chain call a request makes: its environment, its cache row
at the time of the call, and its `force_live` argument. -/
structure CallSpec (α : Type) where
  env : ChainEnv α
  cached : Option α
  force_live : Bool

/-- Run one call with the shared flag threaded through; returns the
attempt trace and the updated flag. -/
def runCall {α : Type} (retries : ℕ) (flag : Bool) (c : CallSpec α) :
    List (ChainOutcome α) × Bool :=
  let (_, s', tr) := fetch_gnomad_frequency c.env retries c.force_live
    ⟨c.cached, flag⟩
  (tr, s'.fallback_used)

/-- Run the calls of one request in order, threading the flag. -/
def runCalls {α : Type} (retries : ℕ) (flag : Bool) :
    List (CallSpec α) → List (List (ChainOutcome α)) × Bool
  | [] => ([], flag)
  | c :: cs =>
    let (tr, flag') := runCall retries flag c
    let (trs, flag'') := runCalls retries flag' cs
    (tr :: trs, flag'')

/-- One top-level request: reset the flag (src/variant_engine.py line 77),
then perform the request's Source Chain calls. -/
def processRequest {α : Type} (retries : ℕ) (calls : List (CallSpec α)) :
    List (List (ChainOutcome α)) × Bool :=
  runCalls retries false calls

/-! ## Batch job worker (`src/api.py`)

`start_batch` (lines 343-358) creates
`BATCH_JOBS[batch_id] = {status: "pending", total: len(variants),
processed: 0, results: []}` and schedules `process_batch_task`.

`process_batch_task` (lines 88-133) sets `status = "processing"`, builds a
*local* list `results`, and for each variant `v` (index `i`) calls
`compute_variant_impact`, appending a success entry (or, when the call
raises, a failure entry carrying `str(e)`) to the local list, then sets
`BATCH_JOBS[batch_id]["processed"] = i + 1`.  After the loop it assigns
the local list to `BATCH_JOBS[batch_id]["results"]` and finally sets
`status = "completed"`.

The domain computation for one input is modelled as
`Except String ρ` (the outcome of the whole per-item `try` block); an
input is paired with its outcome.  The model records the job record after
every mutation of `BATCH_JOBS[batch_id]`, which is exactly the sequence of
snapshots a concurrent `get_batch_status` poll (lines 360-368) can
observe. -/

/-- State of a job record (`status` field strings in src/api.py). -/
inductive JobStatus where
  | pending
  | processing
  | completed
  | failed
  deriving Repr, DecidableEq

/-- One entry of a batch job's `results` list (src/api.py lines 109-123):
a success entry built from the computation's result, or a failure entry
carrying `str(e)`. -/
inductive ItemOutcome (ι ρ : Type) where
  | success (input : ι) (value : ρ)
  | failed (input : ι) (error : String)
  deriving Repr, DecidableEq

/-- A `BATCH_JOBS[batch_id]` record. -/
structure BatchJob (ι ρ : Type) where
  status : JobStatus
  total : ℕ
  processed : ℕ
  results : List (ItemOutcome ι ρ)
  deriving Repr, DecidableEq

/-- The job record `start_batch` creates (src/api.py lines 349-354). -/
def start_batch (ι ρ : Type) (n : ℕ) : BatchJob ι ρ :=
  ⟨.pending, n, 0, []⟩

/-- The `results` entry the per-item `try/except` appends
(src/api.py lines 97-123). -/
def itemEntry {ι ρ : Type} (item : ι × Except String ρ) : ItemOutcome ι ρ :=
  match item.2 with
  | .ok v => .success item.1 v
  | .error e => .failed item.1 e

/-- The sequence of job-record snapshots `process_batch_task` produces,
one after each mutation of `BATCH_JOBS[batch_id]`
(src/api.py lines 88-133), given the per-input computation outcomes. -/
def process_batch_task {ι ρ : Type} (inputs : List (ι × Except String ρ))
    (job : BatchJob ι ρ) : List (BatchJob ι ρ) :=
  -- line 93: BATCH_JOBS[batch_id]["status"] = "processing"
  let jp : BatchJob ι ρ := { job with status := .processing }
  -- line 126 (each iteration): BATCH_JOBS[batch_id]["processed"] = i + 1
  -- (the local `results` list is NOT written to the record here)
  let loop := (List.range inputs.length).map
    (fun i => { jp with processed := i + 1 })
  -- line 128: BATCH_JOBS[batch_id]["results"] = results (the local list)
  let jr : BatchJob ι ρ :=
    { jp with processed := inputs.length, results := inputs.map itemEntry }
  -- line 129: BATCH_JOBS[batch_id]["status"] = "completed"
  let jc : BatchJob ι ρ := { jr with status := .completed }
  jp :: loop ++ [jr, jc]

/-- The job record once the worker has finished (the last snapshot). -/
def batchFinal {ι ρ : Type} (inputs : List (ι × Except String ρ))
    (job : BatchJob ι ρ) : BatchJob ι ρ :=
  (process_batch_task inputs job).getLast (by simp [process_batch_task])

/-- A Source Chain attempt answered from the cache or by a live success. -/
def answeredFromCacheOrLive {α : Type} (o : ChainOutcome α) : Bool :=
  o.provenance == .cache || o.provenance == .live

/-! ## Concrete inputs used by witnesses and counterexamples -/

/-- Three cache rows, the keys of the spec's pattern-invalidation example. -/
def exTable : CacheTable ℕ :=
  [("gnomad:1:100:A:T", ⟨1, 0, 100⟩),
   ("gnomad:1:200:A:T", ⟨2, 0, 100⟩),
   ("ensembl:BRCA1", ⟨3, 0, 100⟩)]

/-- An operation that always fails: odd invocations raise, even ones
return `None`. -/
def opAlwaysFail : ℕ → Except String (Option ℕ) :=
  fun i => if i % 2 = 0 then .error "network error" else .ok none

/-- An operation that fails twice and succeeds on its third invocation. -/
def opThirdTry : ℕ → Except String (Option ℕ) :=
  fun i => if i < 2 then .error "timeout" else .ok (some 7)

/-- An environment whose live upstream always fails while the static
fallback dataset holds the key. -/
def envFallbackHit : ChainEnv ℕ :=
  ⟨fun _ => Option.none, some 42⟩

/-- An environment whose live upstream always fails and whose static
fallback dataset misses the key. -/
def envAllMiss : ChainEnv ℕ :=
  ⟨fun _ => Option.none, Option.none⟩

/-- A request consisting of one call on a cold cache against
`envAllMiss`, with `force_live = False`. -/
def exRequest : List (CallSpec ℕ) :=
  [⟨envAllMiss, Option.none, false⟩]

/-- A two-item batch whose second item's computation raises. -/
def exBatch2 : List (ℕ × Except String ℕ) :=
  [(1, .ok 10), (2, .error "boom")]

/-- The spec's batch-isolation example: five inputs, items 2 and 4
crafted to fail. -/
def exBatch5 : List (ℕ × Except String ℕ) :=
  [(1, .ok 10), (2, .error "boom"), (3, .ok 30), (4, .error "bad"),
   (5, .ok 50)]

/-! ## Helper lemmas -/

/-- `find?` is unaffected by filtering out elements the search predicate
rejects. -/
theorem find?_filter_of_imp {β : Type} (l : List β) (p q : β → Bool)
    (h : ∀ x, p x = true → q x = true) :
    (l.filter q).find? p = l.find? p := by
  induction l with
  | nil => rfl
  | cons a l ih =>
    by_cases hq : q a = true
    · rw [List.filter_cons, if_pos hq, List.find?_cons, List.find?_cons]
      cases p a
      · exact ih
      · rfl
    · have hp : ¬ p a = true := fun hpa => hq (h a hpa)
      rw [List.filter_cons, if_neg hq, ih, List.find?_cons_of_neg _ hp]

theorem length_filter_add_length_filter_not {β : Type} (l : List β)
    (p : β → Bool) :
    (l.filter p).length + (l.filter (fun x => ¬ p x)).length = l.length := by
  induction l with
  | nil => rfl
  | cons a l ih =>
    rcases hp : p a with _ | _ <;>
      simp [List.filter_cons, hp, ← ih] <;> omega

/-! ## Claims -/

/-- C10: the `max_age_hours` parameter of `APICache.get` is dead: the
result depends only on the table, the current time and the key, never on
`max_age_hours` — expiry is decided solely by the stored `expires_at`. -/
theorem get_ignores_max_age {α : Type} (table : CacheTable α) (now : ℚ)
    (key : String) (m₁ m₂ : Option ℚ) :
    APICache.get table now key m₁ = APICache.get table now key m₂ := rfl

/-- C3: for `ttl > 0`, `set key value ttl` at time `now` overwrites any
previous row for `key` with `expires_at = now + ttl`; a `get` at any time
not after `now + ttl` returns the stored value, and a `get` at any time
strictly after `now + ttl` returns `None` — never a stale value. -/
theorem cache_set_get_ttl {α : Type} (d : ℚ) (table : CacheTable α)
    (now : ℚ) (key : String) (v : α) (ttl t₁ t₂ : ℚ) (m₁ m₂ : Option ℚ)
    (httl : 0 < ttl) (h₁ : ¬ t₁ > now + ttl) (h₂ : t₂ > now + ttl) :
    APICache.lookupRow (APICache.set d table now key v (some ttl)) key =
      some ⟨v, now, now + ttl⟩ ∧
    APICache.get (APICache.set d table now key v (some ttl)) t₁ key m₁ =
      some v ∧
    APICache.get (APICache.set d table now key v (some ttl)) t₂ key m₂ =
      none := by
  have hrow : APICache.lookupRow (APICache.set d table now key v (some ttl))
      key = some ⟨v, now, now + ttl⟩ := by
    unfold APICache.set APICache.lookupRow
    rw [List.find?_cons_of_pos _ (by simp)]
    rfl
  refine ⟨hrow, ?_, ?_⟩
  · unfold APICache.get
    rw [hrow]
    simp [h₁]
  · unfold APICache.get
    rw [hrow]
    simp [h₂]

/-- Witness for C3 at a concrete input: default TTL 48, empty table,
`set` at time 0 with TTL 1 hour, reads at times 1/2 and 2. -/
theorem cache_set_get_ttl_witness :
    APICache.lookupRow (APICache.set 48 ([] : CacheTable ℕ) 0 "k" 7 (some 1))
      "k" = some ⟨7, 0, 0 + 1⟩ ∧
    APICache.get (APICache.set 48 ([] : CacheTable ℕ) 0 "k" 7 (some 1))
      (1 / 2) "k" none = some 7 ∧
    APICache.get (APICache.set 48 ([] : CacheTable ℕ) 0 "k" 7 (some 1))
      2 "k" (some 5) = none :=
  cache_set_get_ttl 48 [] 0 "k" 7 1 (1 / 2) 2 none (some 5)
    (by norm_num) (by norm_num) (by norm_num)

/-- C9, counterexample: on the spec's own example table, invalidating
pattern `"gnomad:%"` deletes exactly two rows, but the method's return
value is `None`, not the count `2` — the Python body
(src/api_cache.py lines 141-149) computes `deleted` only to log it and
has no `return` statement. -/
theorem invalidate_pattern_returns_none :
    APICache.invalidatePatternTable exTable "gnomad:%" =
      [("ensembl:BRCA1", ⟨3, 0, 100⟩)] ∧
    APICache.invalidatePatternDeleted exTable "gnomad:%" = 2 ∧
    APICache.invalidatePatternReturn exTable "gnomad:%" = none ∧
    (none : Option ℕ) ≠ some 2 := by
  refine ⟨by decide, by decide, rfl, by decide⟩

/-- C9, amended: `invalidate_pattern` deletes exactly the rows whose key
matches the LIKE pattern — a matching key no longer resolves, a
non-matching key's row is untouched, and the number of deleted rows plus
the number of surviving rows is the original row count — but the count is
only computed and logged; the method returns `None`, not the count. -/
theorem invalidate_pattern_amended {α : Type} (table : CacheTable α)
    (pattern key : String) :
    (APICache.likeMatch pattern key = true →
      APICache.lookupRow (APICache.invalidatePatternTable table pattern) key
        = none) ∧
    (APICache.likeMatch pattern key = false →
      APICache.lookupRow (APICache.invalidatePatternTable table pattern) key
        = APICache.lookupRow table key) ∧
    APICache.invalidatePatternDeleted table pattern +
      (APICache.invalidatePatternTable table pattern).length =
      table.length ∧
    APICache.invalidatePatternReturn table pattern = none := by
  refine ⟨?_, ?_, ?_, rfl⟩
  · intro hm
    unfold APICache.invalidatePatternTable APICache.lookupRow
    rw [List.find?_eq_none.mpr]
    · rfl
    · intro r hr
      rcases List.mem_filter.mp hr with ⟨-, hkeep⟩
      simp only [decide_eq_true_eq]
      intro hkey
      rw [hkey] at hkeep
      simp [hm] at hkeep
  · intro hm
    unfold APICache.invalidatePatternTable APICache.lookupRow
    rw [find?_filter_of_imp]
    intro r hr
    simp only [decide_eq_true_eq] at hr
    simp [hr, hm]
  · unfold APICache.invalidatePatternDeleted APICache.invalidatePatternTable
    exact length_filter_add_length_filter_not table _

/-- Witness for C9's amended claim on the spec's example table. -/
theorem invalidate_pattern_amended_witness :
    APICache.lookupRow (APICache.invalidatePatternTable exTable "gnomad:%")
      "gnomad:1:100:A:T" = none ∧
    APICache.lookupRow (APICache.invalidatePatternTable exTable "gnomad:%")
      "ensembl:BRCA1" = some ⟨3, 0, 100⟩ ∧
    APICache.invalidatePatternDeleted exTable "gnomad:%" +
      (APICache.invalidatePatternTable exTable "gnomad:%").length = 3 ∧
    APICache.invalidatePatternReturn exTable "gnomad:%" = none := by
  refine ⟨(invalidate_pattern_amended exTable "gnomad:%"
      "gnomad:1:100:A:T").1 (by decide), ?_, ?_,
    (invalidate_pattern_amended exTable "gnomad:%" "gnomad:1:100:A:T").2.2.2⟩
  · rw [(invalidate_pattern_amended exTable "gnomad:%"
      "ensembl:BRCA1").2.1 (by decide)]
    decide
  · exact (invalidate_pattern_amended exTable "gnomad:%"
      "ensembl:BRCA1").2.2.1

/-- The retry loop on an all-failing stretch of invocations: every
attempt is consumed and the loop falls through to `return None`. -/
theorem retryGo_all_fail {α : Type} (op : ℕ → Except String (Option α)) :
    ∀ remaining attempt,
      (∀ i, attempt ≤ i → i < attempt + remaining →
        attemptFails (op i) = true) →
      retryGo op attempt remaining = none ∧
      retryCount op attempt remaining = remaining := by
  intro remaining
  induction remaining with
  | zero => intro attempt _; exact ⟨rfl, rfl⟩
  | succ r ih =>
    intro attempt h
    have hfail : attemptFails (op attempt) = true :=
      h attempt le_rfl (by omega)
    have ihr := ih (attempt + 1) (fun i h1 h2 => h i (by omega) (by omega))
    rcases hop : op attempt with e | v
    · refine ⟨by simp [retryGo, hop, ihr.1], ?_⟩
      simp only [retryCount, hop, ihr.2]
      omega
    · rcases v with _ | v
      · refine ⟨by simp [retryGo, hop, ihr.1], ?_⟩
        simp only [retryCount, hop, ihr.2]
        omega
      · rw [hop] at hfail
        simp [attemptFails] at hfail

/-- The retry loop when the `j`-th invocation from the current one is the
first to succeed: the loop stops there with its value, having invoked the
operation `j + 1` times. -/
theorem retryGo_first_success {α : Type} (op : ℕ → Except String (Option α))
    (v : α) :
    ∀ j remaining attempt, j < remaining →
      (∀ i, attempt ≤ i → i < attempt + j → attemptFails (op i) = true) →
      op (attempt + j) = .ok (some v) →
      retryGo op attempt remaining = some v ∧
      retryCount op attempt remaining = j + 1 := by
  intro j
  induction j with
  | zero =>
    intro remaining attempt hlt _ hok
    rcases remaining with _ | r
    · omega
    · simp only [Nat.add_zero] at hok
      simp [retryGo, retryCount, hok]
  | succ j ih =>
    intro remaining attempt hlt hfails hok
    rcases remaining with _ | r
    · omega
    · have hfail : attemptFails (op attempt) = true :=
        hfails attempt le_rfl (by omega)
      have ihr := ih r (attempt + 1) (by omega)
        (fun i h1 h2 => hfails i (by omega) (by omega))
        (by rw [show attempt + 1 + j = attempt + (j + 1) by omega]; exact hok)
      rcases hop : op attempt with e | w
      · refine ⟨by simp [retryGo, hop, ihr.1], ?_⟩
        simp only [retryCount, hop, ihr.2]
        omega
      · rcases w with _ | w
        · refine ⟨by simp [retryGo, hop, ihr.1], ?_⟩
          simp only [retryCount, hop, ihr.2]
          omega
        · rw [hop] at hfail
          simp [attemptFails] at hfail

/-- C4: `retry_on_failure(retries = n)`: an operation every one of whose
invocations fails (raises or returns `None` — both become a failed
attempt) is invoked exactly `n` times and the wrapper returns `None`
(its return type carries no exception channel, so exhaustion never
raises); an operation failing on its first `k - 1` invocations and
succeeding on the `k`-th, `k ≤ n`, is invoked exactly `k` times and the
wrapper returns that first successful value. -/
theorem retry_on_failure_spec {α : Type} (n : ℕ)
    (op : ℕ → Except String (Option α)) :
    ((∀ i, i < n → attemptFails (op i) = true) →
      retry_on_failure n op = none ∧ retryInvocations n op = n) ∧
    (∀ k v, 1 ≤ k → k ≤ n →
      (∀ i, i < k - 1 → attemptFails (op i) = true) →
      op (k - 1) = .ok (some v) →
      retry_on_failure n op = some v ∧ retryInvocations n op = k) := by
  constructor
  · intro h
    exact retryGo_all_fail op n 0 (fun i _ h2 => h i (by omega))
  · intro k v hk1 hkn hfails hok
    have := retryGo_first_success op v (k - 1) n 0 (by omega)
      (fun i _ h2 => hfails i (by omega)) (by simpa using hok)
    rw [show k - 1 + 1 = k by omega] at this
    exact this

/-- Witness for C4: `opAlwaysFail` under `attempts = 3` is invoked three
times and yields `None`; `opThirdTry` under `attempts = 3` is invoked
three times and yields its third invocation's value. -/
theorem retry_on_failure_spec_witness :
    (retry_on_failure 3 opAlwaysFail = none ∧
      retryInvocations 3 opAlwaysFail = 3) ∧
    (retry_on_failure 3 opThirdTry = some 7 ∧
      retryInvocations 3 opThirdTry = 3) :=
  ⟨(retry_on_failure_spec 3 opAlwaysFail).1 (by decide),
   (retry_on_failure_spec 3 opThirdTry).2 3 7 (by decide) (by decide)
     (by decide) (by rfl)⟩

/-- C8: for a limiter with budget `(calls, period)`, two consecutive
invocations through the same decorator instance start at least
`period / calls` seconds apart (whatever the wall-clock instants at which
the callers arrive), and the instance's recorded `last_call_time` after a
call is exactly the instant the wrapped function returned — at or after
the instant it started, never before. -/
theorem rate_limit_spacing (calls : ℕ) (period : ℚ)
    (s₀ : RateLimiterState) (now₁ d₁ now₂ d₂ : ℚ)
    (hd₁ : 0 ≤ d₁) :
    ((rateLimitInvoke (rateLimitMinInterval calls period) s₀ now₁ d₁).1.start
        + rateLimitMinInterval calls period ≤
      (rateLimitInvoke (rateLimitMinInterval calls period)
        (rateLimitInvoke (rateLimitMinInterval calls period) s₀ now₁ d₁).2
        now₂ d₂).1.start) ∧
    (rateLimitInvoke (rateLimitMinInterval calls period) s₀ now₁ d₁).2.last_call_time
      = (rateLimitInvoke (rateLimitMinInterval calls period) s₀ now₁ d₁).1.finish ∧
    (rateLimitInvoke (rateLimitMinInterval calls period) s₀ now₁ d₁).1.start ≤
      (rateLimitInvoke (rateLimitMinInterval calls period) s₀ now₁ d₁).1.finish := by
  set m := rateLimitMinInterval calls period with hm
  have start_ge : ∀ (s : RateLimiterState) (now d : ℚ),
      s.last_call_time + m ≤ (rateLimitInvoke m s now d).1.start := by
    intro s now d
    by_cases h : now - s.last_call_time < m <;> simp [rateLimitInvoke, h] <;>
      linarith
  have finish_eq : ∀ (s : RateLimiterState) (now d : ℚ),
      (rateLimitInvoke m s now d).1.finish =
        (rateLimitInvoke m s now d).1.start + d := by
    intro s now d
    by_cases h : now - s.last_call_time < m <;> simp [rateLimitInvoke, h]
  have state_eq : ∀ (s : RateLimiterState) (now d : ℚ),
      (rateLimitInvoke m s now d).2.last_call_time =
        (rateLimitInvoke m s now d).1.finish := by
    intro s now d
    by_cases h : now - s.last_call_time < m <;> simp [rateLimitInvoke, h]
  refine ⟨?_, state_eq s₀ now₁ d₁, by rw [finish_eq]; linarith⟩
  have h2 := start_ge (rateLimitInvoke m s₀ now₁ d₁).2 now₂ d₂
  rw [state_eq, finish_eq] at h2
  linarith

/-- Executing the chain body with a cold cache, a failing live attempt,
`force_live = False` and a fallback miss: every attempt fails the same
way, so the decorator consumes all remaining attempts. -/
theorem chainRetry_all_miss {α : Type} (env : ChainEnv α)
    (hlive : ∀ i, env.live i = Option.none)
    (hfb : env.fallbackData = Option.none) :
    ∀ remaining attempt (s : ChainState α), s.cached = Option.none →
      (chainRetry env false attempt remaining s).1 = Option.none ∧
      (chainRetry env false attempt remaining s).2.2 =
        List.replicate remaining ⟨Option.none, .none, true, true⟩ := by
  intro remaining
  induction remaining with
  | zero => intro attempt s hs; exact ⟨rfl, rfl⟩
  | succ r ih =>
    intro attempt s hs
    have hbody : chainBody env attempt false s =
        (⟨Option.none, .none, true, true⟩,
          { s with fallback_used := true }) := by
      simp [chainBody, hs, hlive attempt, hfb]
    have ihr := ih (attempt + 1) { s with fallback_used := true } (by simp [hs])
    constructor <;>
      simp [chainRetry, hbody, ihr.1, ihr.2, List.replicate_succ]

/-- Executing the chain body with a cold cache, a failing live attempt,
`force_live = False` and a fallback hit: the first body execution already
returns the fallback value, so the decorator performs no retry. -/
theorem chainRetry_fallback_hit {α : Type} (env : ChainEnv α) (v : α)
    (hlive : ∀ i, env.live i = Option.none)
    (hfb : env.fallbackData = some v) :
    ∀ remaining attempt (s : ChainState α), s.cached = Option.none →
      1 ≤ remaining →
      chainRetry env false attempt remaining s =
        (some v, ⟨some v, true⟩, [⟨some v, .fallback, true, true⟩]) := by
  intro remaining attempt s hs h1
  rcases remaining with _ | r
  · omega
  · simp [chainRetry, chainBody, hs, hlive attempt, hfb]

/-- Executing the chain body with a cold cache, failing live attempts and
`force_live = True`: every attempt returns `None` without touching the
fallback code, and the decorator consumes all remaining attempts. -/
theorem chainRetry_force_fail {α : Type} (env : ChainEnv α)
    (hlive : ∀ i, env.live i = Option.none) :
    ∀ remaining attempt (s : ChainState α), s.cached = Option.none →
      (chainRetry env true attempt remaining s).1 = Option.none ∧
      (chainRetry env true attempt remaining s).2.2 =
        List.replicate remaining ⟨Option.none, .none, true, false⟩ := by
  intro remaining
  induction remaining with
  | zero => intro attempt s hs; exact ⟨rfl, rfl⟩
  | succ r ih =>
    intro attempt s hs
    have hbody : chainBody env attempt true s =
        (⟨Option.none, .none, true, false⟩,
          { s with fallback_used := true }) := by
      simp [chainBody, hs, hlive attempt]
    have ihr := ih (attempt + 1) { s with fallback_used := true } (by simp [hs])
    constructor <;>
      simp [chainRetry, hbody, ihr.1, ihr.2, List.replicate_succ]

theorem liveAttempts_replicate {α : Type} (n : ℕ) (o : ChainOutcome α)
    (h : o.liveAttempted = true) :
    liveAttempts (List.replicate n o) = n := by
  induction n with
  | zero => rfl
  | succ n ih =>
    rw [List.replicate_succ]
    simp only [liveAttempts, List.filter_cons, h, if_true, List.length_cons]
    simp only [liveAttempts] at ih
    omega

/-- C1, counterexample: against an environment whose live upstream always
fails while the static fallback dataset holds the key
(`envFallbackHit`), the decorated fetch configured with 3 attempts
returns the fallback value after a single body execution: its one and
only attempt issues one live request and consults the static fallback in
that same attempt — the fallback is reached after 1 live attempt, not
only after the configured 3 are exhausted, because `retry_on_failure`
wraps the whole chain rather than the live call alone. -/
theorem fallback_consulted_before_retry_exhaustion :
    fetch_gnomad_frequency envFallbackHit 3 false ⟨Option.none, false⟩ =
      (some 42, ⟨some 42, true⟩,
        [⟨some 42, Provenance.fallback, true, true⟩]) ∧
    liveAttempts
      (fetch_gnomad_frequency envFallbackHit 3 false
        ⟨Option.none, false⟩).2.2 = 1 ∧
    (1 : ℕ) < 3 := by
  refine ⟨by decide, by decide, by decide⟩

/-- C1, amended: `retry_on_failure` wraps the entire chain body, so with
`force_live = False` and a cold cache each failed live attempt is
followed immediately by a static-fallback lookup inside the same attempt:
if the fallback holds the key, the fetch returns its value after exactly
one live attempt; only when the live upstream and the fallback dataset
both keep missing is the whole chain re-run, up to the configured attempt
count, after which the result is no data. -/
theorem retry_wraps_whole_chain {α : Type} (env : ChainEnv α)
    (retries : ℕ) (flag : Bool)
    (hlive : ∀ i, env.live i = Option.none) (hret : 1 ≤ retries) :
    (∀ v, env.fallbackData = some v →
      fetch_gnomad_frequency env retries false ⟨Option.none, flag⟩ =
        (some v, ⟨some v, true⟩, [⟨some v, .fallback, true, true⟩])) ∧
    (env.fallbackData = Option.none →
      (fetch_gnomad_frequency env retries false ⟨Option.none, flag⟩).1 =
        Option.none ∧
      liveAttempts
        (fetch_gnomad_frequency env retries false
          ⟨Option.none, flag⟩).2.2 = retries) := by
  constructor
  · intro v hfb
    exact chainRetry_fallback_hit env v hlive hfb retries 0
      ⟨Option.none, flag⟩ rfl hret
  · intro hfb
    have h := chainRetry_all_miss env hlive hfb retries 0
      ⟨Option.none, flag⟩ rfl
    refine ⟨h.1, ?_⟩
    have h2 : (fetch_gnomad_frequency env retries false
        ⟨Option.none, flag⟩).2.2 =
        List.replicate retries ⟨Option.none, .none, true, true⟩ := h.2
    rw [h2, liveAttempts_replicate]
    rfl

/-- Witness for C1's amended claim: the fallback-hit branch at
`envFallbackHit` and the all-miss branch at `envAllMiss`, both with 3
configured attempts. -/
theorem retry_wraps_whole_chain_witness :
    fetch_gnomad_frequency envFallbackHit 3 false ⟨Option.none, false⟩ =
      (some 42, ⟨some 42, true⟩,
        [⟨some 42, .fallback, true, true⟩]) ∧
    (fetch_gnomad_frequency envAllMiss 3 false ⟨Option.none, false⟩).1 =
      Option.none ∧
    liveAttempts
      (fetch_gnomad_frequency envAllMiss 3 false
        ⟨Option.none, false⟩).2.2 = 3 :=
  ⟨(retry_wraps_whole_chain envFallbackHit 3 false (fun _ => rfl)
      (by norm_num)).1 42 rfl,
   (retry_wraps_whole_chain envAllMiss 3 false (fun _ => rfl)
      (by norm_num)).2 rfl⟩

/-- C2: with `force_live = True`, a cold cache and a live upstream that
keeps failing, the decorated fetch returns `None` and no attempt ever
consults the static fallback dataset (the body returns from the
`force_live` branch before the fallback code, on every attempt). -/
theorem force_live_no_fallback {α : Type} (env : ChainEnv α)
    (retries : ℕ) (flag : Bool)
    (hlive : ∀ i, env.live i = Option.none) :
    (fetch_gnomad_frequency env retries true ⟨Option.none, flag⟩).1 =
      Option.none ∧
    ∀ o ∈ (fetch_gnomad_frequency env retries true
        ⟨Option.none, flag⟩).2.2, o.fallbackConsulted = false := by
  have h := chainRetry_force_fail env hlive retries 0 ⟨Option.none, flag⟩ rfl
  refine ⟨h.1, ?_⟩
  intro o ho
  have h2 : (fetch_gnomad_frequency env retries true
      ⟨Option.none, flag⟩).2.2 =
      List.replicate retries ⟨Option.none, .none, true, false⟩ := h.2
  rw [h2] at ho
  rw [List.eq_of_mem_replicate ho]

/-- Witness for C2: even though `envFallbackHit`'s static fallback holds
the key, a `force_live` fetch whose live attempts all fail returns `None`
and no attempt consults the fallback. -/
theorem force_live_no_fallback_witness :
    (fetch_gnomad_frequency envFallbackHit 3 true ⟨Option.none, false⟩).1 =
      Option.none ∧
    ((fetch_gnomad_frequency envFallbackHit 3 true
        ⟨Option.none, false⟩).2.2.all
      (fun o => !o.fallbackConsulted)) = true := by
  have h := force_live_no_fallback envFallbackHit 3 false (fun _ => rfl)
  refine ⟨h.1, ?_⟩
  rw [List.all_eq_true]
  intro o ho
  simp [h.2 o ho]

/-- The chain body sets the module-level `fallback_used` flag on exactly
the paths not answered from the cache or by a live success (the
`force_live` failure, the fallback hit and the total miss). -/
theorem chainBody_flag {α : Type} (env : ChainEnv α) (i : ℕ) (f : Bool)
    (s : ChainState α) :
    (chainBody env i f s).2.fallback_used =
      (s.fallback_used ||
        !answeredFromCacheOrLive (chainBody env i f s).1) := by
  rcases hs : s.cached with _ | v
  · rcases hl : env.live i with _ | v
    · rcases f
      · rcases hfb : env.fallbackData with _ | v
        · simp [chainBody, hs, hl, hfb, answeredFromCacheOrLive]
        · simp [chainBody, hs, hl, hfb, answeredFromCacheOrLive]
      · simp [chainBody, hs, hl, answeredFromCacheOrLive]
    · simp [chainBody, hs, hl, answeredFromCacheOrLive]
  · simp [chainBody, hs, answeredFromCacheOrLive]

/-- Across the decorator's attempts, the flag after the call is the flag
before it, or-ed with "some attempt was not answered from cache/live". -/
theorem chainRetry_flag {α : Type} (env : ChainEnv α) (f : Bool) :
    ∀ remaining attempt (s : ChainState α),
      (chainRetry env f attempt remaining s).2.1.fallback_used =
        (s.fallback_used ||
          ((chainRetry env f attempt remaining s).2.2).any
            (fun o => !answeredFromCacheOrLive o)) := by
  intro remaining
  induction remaining with
  | zero => intro attempt s; simp [chainRetry]
  | succ r ih =>
    intro attempt s
    rcases hb : chainBody env attempt f s with ⟨o, s'⟩
    have hflag : s'.fallback_used =
        (s.fallback_used || !answeredFromCacheOrLive o) := by
      have h := chainBody_flag env attempt f s
      rw [hb] at h
      exact h
    rcases ho : o.result with _ | v
    · have ihr := ih (attempt + 1) s'
      simp [chainRetry, hb, ho, ihr, hflag, Bool.or_assoc]
    · simp [chainRetry, hb, ho, hflag]

/-- One request-level call's effect on the shared flag. -/
theorem runCall_flag {α : Type} (retries : ℕ) (flag : Bool)
    (c : CallSpec α) :
    (runCall retries flag c).2 =
      (flag || ((runCall retries flag c).1).any
        (fun o => !answeredFromCacheOrLive o)) := by
  have h2 := chainRetry_flag c.env c.force_live retries 0 ⟨c.cached, flag⟩
  rcases h : fetch_gnomad_frequency c.env retries c.force_live
      ⟨c.cached, flag⟩ with ⟨r, s', tr⟩
  have h' : chainRetry c.env c.force_live 0 retries ⟨c.cached, flag⟩ =
      (r, s', tr) := h
  rw [h'] at h2
  simp only [runCall, h]
  simpa using h2

/-- Folding the calls of a request, the flag accumulates exactly
"some attempt of some call was not answered from cache/live". -/
theorem runCalls_flag {α : Type} (retries : ℕ) :
    ∀ (cs : List (CallSpec α)) (flag : Bool),
      (runCalls retries flag cs).2 =
        (flag || ((runCalls retries flag cs).1).any
          (fun tr => tr.any (fun o => !answeredFromCacheOrLive o))) := by
  intro cs
  induction cs with
  | nil => intro flag; simp [runCalls]
  | cons c cs ih =>
    intro flag
    rcases hc : runCall retries flag c with ⟨tr, flag'⟩
    have h1 : flag' = (flag || tr.any (fun o => !answeredFromCacheOrLive o)) := by
      have h := runCall_flag retries flag c
      rw [hc] at h
      simpa using h
    rcases hcs : runCalls retries flag' cs with ⟨trs, flag''⟩
    have h2 : flag'' = (flag' || trs.any
        (fun tr => tr.any (fun o => !answeredFromCacheOrLive o))) := by
      have h := ih flag'
      rw [hcs] at h
      simpa using h
    simp only [runCalls, hc, hcs]
    simp [h2, h1, Bool.or_assoc]

/-- C7, counterexample: a request consisting of one fetch against a live
upstream that keeps failing and a fallback dataset that misses the key.
The request ends with the flag true, yet no Source Chain attempt was
answered by the static-fallback or synthetic tier — every attempt's
provenance is `none` (the code also sets the flag on the paths that
produce no value at all). -/
theorem fallback_flag_set_without_fallback_tier :
    processRequest 3 exRequest =
      ([[⟨Option.none, Provenance.none, true, true⟩,
         ⟨Option.none, Provenance.none, true, true⟩,
         ⟨Option.none, Provenance.none, true, true⟩]], true) ∧
    Provenance.none ≠ Provenance.fallback ∧
    Provenance.none ≠ Provenance.synthetic := by
  refine ⟨by decide, by decide, by decide⟩

/-- C7, amended: the request-scoped flag, reset at the start of each
top-level request, is true after the request iff at least one chain
attempt made during the request was *not* answered from the cache or by a
live success — i.e. it was answered by the static-fallback tier or
produced no value (`force_live` failure or total miss).  In particular a
call answered from the cache, or by a live success on its first attempt,
leaves the flag unchanged. -/
theorem fallback_flag_amended {α : Type} (retries : ℕ)
    (calls : List (CallSpec α)) :
    (processRequest retries calls).2 = true ↔
      ∃ tr ∈ (processRequest retries calls).1, ∃ o ∈ tr,
        answeredFromCacheOrLive o = false := by
  unfold processRequest
  rw [runCalls_flag]
  simp [List.any_eq_true]

/-- Witness for C8 at `calls = 1, period = 1`: first call arrives at time
5 and takes 2 seconds; the second caller arrives immediately at time 7
and is delayed so that the two starts are a full second apart. -/
theorem rate_limit_spacing_witness :
    ((rateLimitInvoke (rateLimitMinInterval 1 1) ⟨0⟩ 5 2).1.start
        + rateLimitMinInterval 1 1 ≤
      (rateLimitInvoke (rateLimitMinInterval 1 1)
        (rateLimitInvoke (rateLimitMinInterval 1 1) ⟨0⟩ 5 2).2
        7 0).1.start) ∧
    (rateLimitInvoke (rateLimitMinInterval 1 1) ⟨0⟩ 5 2).2.last_call_time
      = (rateLimitInvoke (rateLimitMinInterval 1 1) ⟨0⟩ 5 2).1.finish ∧
    (rateLimitInvoke (rateLimitMinInterval 1 1) ⟨0⟩ 5 2).1.start ≤
      (rateLimitInvoke (rateLimitMinInterval 1 1) ⟨0⟩ 5 2).1.finish :=
  rate_limit_spacing 1 1 ⟨0⟩ 5 2 7 0 (by norm_num)

/-- The last snapshot the batch worker writes. -/
theorem batchFinal_eq {ι ρ : Type} (inputs : List (ι × Except String ρ))
    (job : BatchJob ι ρ) :
    batchFinal inputs job =
      ⟨.completed, job.total, inputs.length, inputs.map itemEntry⟩ := by
  unfold batchFinal
  have h1 : (process_batch_task inputs job).getLast? =
      some ⟨.completed, job.total, inputs.length, inputs.map itemEntry⟩ := by
    show (({ job with status := .processing } ::
        (List.range inputs.length).map
          (fun i => { job with status := .processing, processed := i + 1 })) ++
        (⟨.processing, job.total, inputs.length, inputs.map itemEntry⟩ : BatchJob ι ρ) ::
        [⟨.completed, job.total, inputs.length, inputs.map itemEntry⟩]).getLast?
      = some ⟨.completed, job.total, inputs.length, inputs.map itemEntry⟩
    rw [List.getLast?_append_cons]
    rfl
  rw [List.getLast?_eq_getLast_of_ne_nil (by simp [process_batch_task])]
    at h1
  exact Option.some.inj h1

/-- C5: a batch of `n` inputs, failing items included, always ends in a
`completed` job with `total = n`, `processed = n`, and a results list
holding exactly one entry per input in the original input order; an input
whose computation raised is recorded as a `failed` entry carrying its
error message, one whose computation succeeded as a `success` entry — so
no per-item failure aborts the processing of the remaining items. -/
theorem batch_isolation {ι ρ : Type} (inputs : List (ι × Except String ρ)) :
    (batchFinal inputs (start_batch ι ρ inputs.length)).status =
      .completed ∧
    (batchFinal inputs (start_batch ι ρ inputs.length)).total =
      inputs.length ∧
    (batchFinal inputs (start_batch ι ρ inputs.length)).processed =
      inputs.length ∧
    (batchFinal inputs (start_batch ι ρ inputs.length)).results =
      inputs.map itemEntry ∧
    (∀ (i : ℕ) (x : ι) (err : String),
      inputs[i]? = some (x, Except.error err) →
      (batchFinal inputs (start_batch ι ρ inputs.length)).results[i]? =
        some (ItemOutcome.failed x err)) ∧
    (∀ (i : ℕ) (x : ι) (v : ρ), inputs[i]? = some (x, Except.ok v) →
      (batchFinal inputs (start_batch ι ρ inputs.length)).results[i]? =
        some (ItemOutcome.success x v)) := by
  rw [batchFinal_eq inputs (start_batch ι ρ inputs.length)]
  refine ⟨rfl, rfl, rfl, rfl, ?_, ?_⟩
  · intro i x err h
    simp [List.getElem?_map, h, itemEntry]
  · intro i x v h
    simp [List.getElem?_map, h, itemEntry]

/-- Witness for C5 on the spec's example batch: five inputs with items
2 and 4 crafted to fail. -/
theorem batch_isolation_witness :
    (batchFinal exBatch5 (start_batch ℕ ℕ 5)).status = .completed ∧
    (batchFinal exBatch5 (start_batch ℕ ℕ 5)).total = 5 ∧
    (batchFinal exBatch5 (start_batch ℕ ℕ 5)).processed = 5 ∧
    (batchFinal exBatch5 (start_batch ℕ ℕ 5)).results[1]? =
      some (.failed 2 "boom") ∧
    (batchFinal exBatch5 (start_batch ℕ ℕ 5)).results[3]? =
      some (.failed 4 "bad") ∧
    (batchFinal exBatch5 (start_batch ℕ ℕ 5)).results[2]? =
      some (.success 3 30) := by
  obtain ⟨h1, h2, h3, _, h5, h6⟩ := batch_isolation exBatch5
  exact ⟨h1, h2, h3, h5 1 2 "boom" rfl, h5 3 4 "bad" rfl, h6 2 3 30 rfl⟩

/-- C6, counterexample: on a two-item batch, the snapshot after the first
item has been handled (observable by a status poll) carries
`processed = 1` but the still-empty initial `results` list: the worker
appends item outcomes to a local Python list and assigns it to the job
record only after the loop (src/api.py line 128), so a poll's
`results` length does not equal `processed` during processing. -/
theorem batch_results_not_incremental :
    (process_batch_task exBatch2 (start_batch ℕ ℕ 2))[1]? =
      some ⟨.processing, 2, 1, []⟩ ∧
    (⟨.processing, 2, 1, []⟩ : BatchJob ℕ ℕ).results.length ≠
      (⟨.processing, 2, 1, []⟩ : BatchJob ℕ ℕ).processed := by
  refine ⟨by decide, by decide⟩

/-- C6, amended: the worker increments `processed` after each item
(`0, 1, …, n` across the observable snapshots), but outcomes are
accumulated in a local list that is written to the job record only once,
after all items: every observable snapshot carries either the initial
empty `results` or the complete one (never a partial list), and any
snapshot taken while `status = processing` with `processed < total` still
carries the empty list.  Only the final two snapshots (the `results`
assignment, then the transition to `completed`) expose the full,
per-input-ordered results. -/
theorem batch_progress_amended {ι ρ : Type}
    (inputs : List (ι × Except String ρ)) :
    ((process_batch_task inputs (start_batch ι ρ inputs.length)).map
        (fun s => s.processed) =
      List.range (inputs.length + 1) ++ [inputs.length, inputs.length]) ∧
    (∀ s ∈ process_batch_task inputs (start_batch ι ρ inputs.length),
      s.results = [] ∨ s.results = inputs.map itemEntry) ∧
    (∀ s ∈ process_batch_task inputs (start_batch ι ρ inputs.length),
      s.status = .processing → s.processed < inputs.length →
        s.results = []) ∧
    (process_batch_task inputs (start_batch ι ρ inputs.length)).getLast? =
      some ⟨.completed, inputs.length, inputs.length,
        inputs.map itemEntry⟩ := by
  refine ⟨?_, ?_, ?_, ?_⟩
  · simp only [process_batch_task, start_batch, List.map_cons,
      List.map_append, List.map_map]
    rw [List.range_succ_eq_map]
    simp [Function.comp, Nat.succ_eq_add_one]
  · intro s hs
    simp only [process_batch_task, start_batch, List.mem_cons,
      List.mem_append, List.mem_map, List.mem_range,
      List.not_mem_nil, or_false] at hs
    rcases hs with (h | ⟨a, -, h⟩) | h | h
    · subst h; exact Or.inl rfl
    · subst h; exact Or.inl rfl
    · subst h; exact Or.inr rfl
    · subst h; exact Or.inr rfl
  · intro s hs hstat hlt
    simp only [process_batch_task, start_batch, List.mem_cons,
      List.mem_append, List.mem_map, List.mem_range,
      List.not_mem_nil, or_false] at hs
    rcases hs with (h | ⟨a, -, h⟩) | h | h
    · subst h; rfl
    · subst h; rfl
    · subst h; exact absurd hlt (by simp)
    · subst h; exact absurd hstat (by simp)
  · have h := batchFinal_eq inputs (start_batch ι ρ inputs.length)
    unfold batchFinal at h
    rw [List.getLast?_eq_getLast_of_ne_nil (by simp [process_batch_task]), h]
    rfl

/-- Witness for C6's amended claim on the two-item example batch: the
snapshot sequence's `processed` values are `0, 1, 2, 2, 2`, and the
mid-processing snapshot with `processed = 1` still carries the empty
results list. -/
theorem batch_progress_amended_witness :
    ((process_batch_task exBatch2 (start_batch ℕ ℕ 2)).map
        (fun s => s.processed) = List.range 3 ++ [2, 2]) ∧
    (⟨.processing, 2, 1, []⟩ : BatchJob ℕ ℕ).results = [] := by
  obtain ⟨h1, -, h3, -⟩ := batch_progress_amended exBatch2
  exact ⟨h1, h3 ⟨.processing, 2, 1, []⟩ (by decide) rfl (by decide)⟩

end CardioVar
